import Mathlib

/-!
# delete-cancelled-runs: the supersession classifier and the cleanup pipeline

A shallow embedding of `src/main.js`.

* Records returned by the platform are structures whose fields carry the
  JavaScript values the script reads: a field that may be `null` is an `Option`.
* `new Date(s)` is the host's date parser.  It is a parameter
  `parseDate : String → Option Int` (milliseconds since the epoch, `none` for an
  Invalid Date whose time value is `NaN`); every general theorem holds for every
  such parser.
* The asynchronous main function is a function from its inputs (environment,
  the parsed bodies of the three listings, the fate of each delete request) to
  the ordered list of effects it performs and the way it ends.
-/

namespace DeleteCancelledRuns

set_option autoImplicit false

/-! ## Data model -/

/-- One entry of `workflow_runs`, with the fields `main.js` reads. -/
structure WorkflowRun where
  id : Int
  head_branch : Option String
  head_sha : String
  created_at : String
  status : Option String
  conclusion : Option String
  html_url : String
  deriving DecidableEq, Repr

/-- One entry of `workflows`, with the fields `main.js` reads. -/
structure Workflow where
  id : Int
  path : String
  deriving DecidableEq, Repr

/-! ## JavaScript built-ins used by the script -/

/-- The expression `a || b` for a nullable string `a` and a string `b`: `a` when
it is truthy (present and not the empty string), `b` otherwise. -/
def jsOr (a : Option String) (b : String) : String :=
  match a with
  | some s => if s = "" then b else s
  | none => b

/-- The comparison `new Date(a) > new Date(b)` on time values: a relational
comparison in which a `NaN` operand gives `false`. -/
def dateGt (a b : Option Int) : Bool :=
  match a, b with
  | some x, some y => decide (y < x)
  | _, _ => false

/-! ## The classifier (`main.js` lines 28-47) -/

/-- The key `run.head_branch || run.head_sha`. -/
def refKey (run : WorkflowRun) : String :=
  jsOr run.head_branch run.head_sha

/-- The callback of `allRuns.filter` at lines 32-37. -/
def isNewerRun (parseDate : String → Option Int) (cancelledRun run : WorkflowRun) : Bool :=
  if run.id = cancelledRun.id then false
  else if refKey run ≠ refKey cancelledRun then false
  else dateGt (parseDate run.created_at) (parseDate cancelledRun.created_at)

/-- The callback of `newerRuns.some` at lines 40-44. -/
def isQualifying (run : WorkflowRun) : Bool :=
  run.conclusion == some "success" ||
  run.status == some "in_progress" ||
  run.status == some "queued"

/-- The list `newerRuns` of line 32. -/
def newerRuns (parseDate : String → Option Int) (cancelledRun : WorkflowRun)
    (allRuns : List WorkflowRun) : List WorkflowRun :=
  allRuns.filter (isNewerRun parseDate cancelledRun)

/-- The function `isSupersededRun` of `main.js`. -/
def isSupersededRun (parseDate : String → Option Int) (cancelledRun : WorkflowRun)
    (allRuns : List WorkflowRun) : Bool :=
  let newer := newerRuns parseDate cancelledRun allRuns
  let hasNewerSuccessfulRun := newer.any isQualifying
  decide (newer.length > 0) && hasNewerSuccessfulRun

/-! ## More built-ins: `endsWith`, `parseInt`, `slice`, template literals -/

/-- The method `String.prototype.endsWith` with one argument. -/
def endsWith (s searchString : String) : Bool :=
  searchString.data.isSuffixOf s.data

/-- The text a template literal or a string method makes of an environment
variable: its value, or `undefined` when the variable is not set. -/
def envStr (v : Option String) : String :=
  v.getD "undefined"

/-- The characters `parseInt` skips at the start of its input (white space and
line terminators of ECMAScript). -/
def isStrWhiteSpaceChar (c : Char) : Bool :=
  let n := c.toNat
  n == 0x9 || n == 0xA || n == 0xB || n == 0xC || n == 0xD || n == 0x20 || n == 0xA0 ||
  n == 0x1680 || (decide (0x2000 ≤ n) && decide (n ≤ 0x200A)) || n == 0x2028 || n == 0x2029 ||
  n == 0x202F || n == 0x205F || n == 0x3000 || n == 0xFEFF

/-- The value of a character as a digit of a radix up to 36. -/
def digitValue (c : Char) : Option Nat :=
  let n := c.toNat
  if 48 ≤ n ∧ n ≤ 57 then some (n - 48)
  else if 97 ≤ n ∧ n ≤ 122 then some (n - 97 + 10)
  else if 65 ≤ n ∧ n ≤ 90 then some (n - 65 + 10)
  else none

/-- The digits of the longest prefix made of digits of the radix. -/
def leadingDigits (radix : Nat) : List Char → List Nat
  | [] => []
  | c :: cs =>
    match digitValue c with
    | some d => if d < radix then d :: leadingDigits radix cs else []
    | none => []

/-- The function `parseInt(string)` without a radix; `none` is `NaN`.  The
result is the exact integer: the rounding of integers beyond 2^53 to a double
does not change what `slice` makes of it, an array being far shorter. -/
def parseInt (string : String) : Option Int :=
  let s0 := string.data.dropWhile isStrWhiteSpaceChar
  let sign : Int := match s0 with
    | '-' :: _ => -1
    | _ => 1
  let s1 := match s0 with
    | '-' :: r => r
    | '+' :: r => r
    | _ => s0
  let radix : Nat := match s1 with
    | '0' :: 'x' :: _ => 16
    | '0' :: 'X' :: _ => 16
    | _ => 10
  let s2 := match s1 with
    | '0' :: 'x' :: r => r
    | '0' :: 'X' :: r => r
    | _ => s1
  let z := leadingDigits radix s2
  if z.isEmpty then none
  else some (sign * ((z.foldl (fun acc d => acc * radix + d) 0 : Nat) : Int))

/-- The abstract operation ToIntegerOrInfinity on a number that is an integer
or `NaN`: `NaN` becomes 0. -/
def toIntegerOrInfinity (n : Option Int) : Int :=
  n.getD 0

/-- The method `Array.prototype.slice(start, end)` with both arguments given as
numbers: a negative index counts from the end of the array. -/
def slice {α : Type} (xs : List α) (start : Int) (stop : Option Int) : List α :=
  let len : Int := xs.length
  let relativeStart := start
  let k := if relativeStart < 0 then max (len + relativeStart) 0 else min relativeStart len
  let relativeEnd := toIntegerOrInfinity stop
  let final := if relativeEnd < 0 then max (len + relativeEnd) 0 else min relativeEnd len
  (xs.drop k.toNat).take (max (final - k) 0).toNat

/-! ## The pipeline (`main.js` lines 49-126) -/

/-- The environment variables the script reads; `none` is an unset variable. -/
structure Env where
  INPUT_DRY_RUN : Option String
  INPUT_GITHUB_TOKEN : Option String
  GITHUB_REPOSITORY : Option String
  INPUT_WORKFLOW_FILE : Option String
  INPUT_MAX_DELETIONS : Option String
  deriving DecidableEq, Repr

/-- What the script does to the outside world, in program order.  A request is
a call of `makeRequest` with this method and path (the host name and the headers
are the same `sharedOptions` in every call). -/
inductive Effect where
  | log (line : String)
  | error (line : String)
  | request (method : String) (path : String)
  deriving DecidableEq, Repr

/-- How the asynchronous function ends: it runs to its last line, it calls
`process.exit(code)`, or an awaited promise rejects (or `JSON.parse` throws) and
nothing catches it. -/
inductive Outcome where
  | completed
  | exited (code : Int)
  | rejected
  deriving DecidableEq, Repr

/-- The trace of one run of the script. -/
structure Execution where
  effects : List Effect
  outcome : Outcome
  deriving DecidableEq, Repr

/-- What the outside world answers.  For a listing, `some l` is a response
whose body parses to the documented shape with the list `l`, and `none` is a
request that rejects or a body that is not JSON.  `deleteOk i` tells whether the
delete request of the run at index `i` of `runsToDelete` resolves. -/
structure Inputs where
  env : Env
  workflows : Option (List Workflow)
  allRuns : Option (List WorkflowRun)
  cancelledRuns : Option (List WorkflowRun)
  deleteOk : Nat → Bool

/-- The flag `dryRun` of line 50. -/
def dryRun (env : Env) : Bool :=
  env.INPUT_DRY_RUN == some "true"

/-- The lookup `workflows.find(w => w.path.endsWith(...))` of line 74. -/
def findWorkflow (env : Env) (workflows : List Workflow) : Option Workflow :=
  workflows.find? (fun w => endsWith w.path (envStr env.INPUT_WORKFLOW_FILE))

/-- The list `supersededRuns` of line 101. -/
def supersededRuns (parseDate : String → Option Int) (allRuns cancelledRuns : List WorkflowRun) :
    List WorkflowRun :=
  cancelledRuns.filter (fun run => isSupersededRun parseDate run allRuns)

/-- The number `parseInt(process.env['INPUT_MAX-DELETIONS'] || '3')` of line 109. -/
def maxDeletions (env : Env) : Option Int :=
  parseInt (jsOr env.INPUT_MAX_DELETIONS "3")

/-- The list `runsToDelete` of line 109. -/
def runsToDelete (parseDate : String → Option Int) (env : Env)
    (allRuns cancelledRuns : List WorkflowRun) : List WorkflowRun :=
  slice (supersededRuns parseDate allRuns cancelledRuns) 0 (maxDeletions env)

/-- The path of the delete request of line 120. -/
def deletePath (env : Env) (run : WorkflowRun) : String :=
  "/repos/" ++ envStr env.GITHUB_REPOSITORY ++ "/actions/runs/" ++ toString run.id

/-- What the callback of `runsToDelete.map` (lines 112-123) does for one run
before its first `await`. -/
def deleteOne (env : Env) (run : WorkflowRun) : List Effect :=
  if dryRun env then
    [Effect.log ("[DRY-RUN] Would delete: " ++ run.html_url)]
  else
    [Effect.log ("Deleting superseded cancelled workflow run: " ++ run.html_url),
     Effect.request "DELETE" (deletePath env run)]

/-- The effects of `runsToDelete.map(...)`: the callbacks run one after the
other, each up to its `await`, before any response is looked at. -/
def deletionStage (env : Env) (runs : List WorkflowRun) : List Effect :=
  (runs.map (deleteOne env)).flatten

/-- Whether `Promise.all` of line 112 resolves: in a dry run no callback awaits
anything; otherwise every delete request has to resolve. -/
def promiseAllResolves (env : Env) (deleteOk : Nat → Bool) (runs : List WorkflowRun) : Bool :=
  dryRun env || (List.range runs.length).all deleteOk

/-- The last line of the script. -/
def summaryLine (env : Env) (runs : List WorkflowRun) : String :=
  "✨ Cleanup complete: " ++ toString runs.length ++ " superseded run(s) " ++
    (if dryRun env then "would be " else "") ++ "deleted"

/-- The banner of lines 52-54. -/
def banner (env : Env) : List Effect :=
  if dryRun env then [Effect.log "🔍 DRY-RUN MODE: Will only log, not delete"] else []

/-- The request of lines 67-71, the listing of the workflows. -/
def workflowsRequest (env : Env) : Effect :=
  Effect.request "GET" ("/repos/" ++ envStr env.GITHUB_REPOSITORY ++ "/actions/workflows")

/-- The request of lines 82-86, the listing of the recent runs of the workflow. -/
def allRunsRequest (env : Env) (workflow : Workflow) : Effect :=
  Effect.request "GET" ("/repos/" ++ envStr env.GITHUB_REPOSITORY ++ "/actions/workflows/" ++
    toString workflow.id ++ "/runs?per_page=100")

/-- The request of lines 91-95, the listing of the cancelled runs of the workflow. -/
def cancelledRunsRequest (env : Env) (workflow : Workflow) : Effect :=
  Effect.request "GET" ("/repos/" ++ envStr env.GITHUB_REPOSITORY ++ "/actions/workflows/" ++
    toString workflow.id ++ "/runs?status=cancelled&per_page=100")

/-- The message of line 77, printed with `console.error`. -/
def notFoundLine (env : Env) : Effect :=
  Effect.error ("Workflow " ++ envStr env.INPUT_WORKFLOW_FILE ++ " not found")

/-- The three counts printed at lines 98, 105 and 106. -/
def countLines (cancelledRuns superseded : List WorkflowRun) : List Effect :=
  [Effect.log ("Found " ++ toString cancelledRuns.length ++ " cancelled runs"),
   Effect.log ("Identified " ++ toString superseded.length ++ " as superseded (will delete)"),
   Effect.log ("Keeping " ++ toString (cancelledRuns.length - superseded.length) ++
     " cancelled runs (not superseded)")]

/-- The asynchronous function of lines 49-126. -/
def main (parseDate : String → Option Int) (inp : Inputs) : Execution :=
  let env := inp.env
  let e1 := banner env ++ [workflowsRequest env]
  match inp.workflows with
  | none => ⟨e1, Outcome.rejected⟩
  | some workflows =>
    match findWorkflow env workflows with
    | none => ⟨e1 ++ [notFoundLine env], Outcome.exited 1⟩
    | some workflow =>
      let e2 := e1 ++ [allRunsRequest env workflow]
      match inp.allRuns with
      | none => ⟨e2, Outcome.rejected⟩
      | some allRuns =>
        let e3 := e2 ++ [cancelledRunsRequest env workflow]
        match inp.cancelledRuns with
        | none => ⟨e3, Outcome.rejected⟩
        | some cancelledRuns =>
          let superseded := supersededRuns parseDate allRuns cancelledRuns
          let toDelete := runsToDelete parseDate env allRuns cancelledRuns
          let e4 := e3 ++ countLines cancelledRuns superseded ++ deletionStage env toDelete
          if promiseAllResolves env inp.deleteOk toDelete then
            ⟨e4 ++ [Effect.log (summaryLine env toDelete)], Outcome.completed⟩
          else
            ⟨e4, Outcome.rejected⟩

/-- Whether an effect is a delete request. -/
def isDeleteRequest : Effect → Bool
  | Effect.request method _ => method == "DELETE"
  | _ => false

/-- The delete requests an execution issues, in order. -/
def deleteRequests (x : Execution) : List Effect :=
  x.effects.filter isDeleteRequest

/-! ## A date parser for the examples

The platform writes `created_at` as `YYYY-MM-DDTHH:mm:ssZ`.  On a string of that
shape that names an existing instant, `new Date` gives the time value computed
below with the day arithmetic of ECMAScript.  The examples instantiate
`parseDate` with this function and only use such strings. -/

/-- The value of a decimal digit. -/
def decimalDigit (c : Char) : Option Nat :=
  if 48 ≤ c.toNat ∧ c.toNat ≤ 57 then some (c.toNat - 48) else none

/-- Whether a year of the Gregorian calendar is a leap year. -/
def isLeapYear (y : Nat) : Bool :=
  (y % 4 == 0 && y % 100 != 0) || y % 400 == 0

/-- The number of days of a month. -/
def daysInMonth (y m : Nat) : Nat :=
  if m = 2 then (if isLeapYear y then 29 else 28)
  else if m = 4 ∨ m = 6 ∨ m = 9 ∨ m = 11 then 30
  else 31

/-- The days of the year before the first day of a month. -/
def daysBeforeMonth (y m : Nat) : Nat :=
  ((List.range (m - 1)).map (fun i => daysInMonth y (i + 1))).sum

/-- The day number of the first day of a year, counted from 1 January 1970
(`DayFromYear` of ECMAScript). -/
def dayFromYear (y : Int) : Int :=
  365 * (y - 1970) + (y - 1969) / 4 - (y - 1901) / 100 + (y - 1601) / 400

/-- The number written by a list of decimal digits. -/
def decimalNumber (cs : List Char) : Option Nat :=
  cs.foldl (fun acc c => do
    let n ← acc
    let d ← decimalDigit c
    pure (10 * n + d)) (some 0)

/-- The time value, in milliseconds, of a timestamp `YYYY-MM-DDTHH:mm:ssZ`;
`none` for any other string. -/
def parseDateUTC (s : String) : Option Int :=
  let cs := s.data
  if cs.length = 20 ∧ cs.get? 4 = some '-' ∧ cs.get? 7 = some '-' ∧ cs.get? 10 = some 'T' ∧
      cs.get? 13 = some ':' ∧ cs.get? 16 = some ':' ∧ cs.get? 19 = some 'Z' then do
    let y ← decimalNumber (cs.take 4)
    let mo ← decimalNumber ((cs.drop 5).take 2)
    let d ← decimalNumber ((cs.drop 8).take 2)
    let h ← decimalNumber ((cs.drop 11).take 2)
    let mi ← decimalNumber ((cs.drop 14).take 2)
    let se ← decimalNumber ((cs.drop 17).take 2)
    if 1 ≤ mo ∧ mo ≤ 12 ∧ 1 ≤ d ∧ d ≤ daysInMonth y mo ∧ h ≤ 23 ∧ mi ≤ 59 ∧ se ≤ 59 then
      let day : Int := dayFromYear y + daysBeforeMonth y mo + (d - 1 : Nat)
      some ((((day * 24 + h) * 60 + mi) * 60 + se) * 1000)
    else none
  else none

/-! ## The vocabulary of the specification -/

/-- RefKey as the specification words it: `head_branch` if present and
non-empty, else `head_sha`. -/
def SpecRefKey (r : WorkflowRun) : String :=
  match r.head_branch with
  | some b => if b ≠ "" then b else r.head_sha
  | none => r.head_sha

/-- The timestamp `a` is strictly later than the timestamp `b` as an instant:
both parse and the instant of `a` comes after that of `b`. -/
def StrictlyLater (parseDate : String → Option Int) (a b : String) : Prop :=
  ∃ ta tb, parseDate a = some ta ∧ parseDate b = some tb ∧ tb < ta

/-- The timestamp `a` is earlier than or equal to the timestamp `b` as an instant. -/
def EarlierOrEqual (parseDate : String → Option Int) (a b : String) : Prop :=
  ∃ ta tb, parseDate a = some ta ∧ parseDate b = some tb ∧ ta ≤ tb

/-- The run `r` is newer than `c` on the same ref: different id, equal RefKey,
strictly later `created_at`. -/
def NewerSameRef (parseDate : String → Option Int) (c r : WorkflowRun) : Prop :=
  r.id ≠ c.id ∧ SpecRefKey r = SpecRefKey c ∧ StrictlyLater parseDate r.created_at c.created_at

/-- The run succeeded or is still active. -/
def Qualifies (r : WorkflowRun) : Prop :=
  r.conclusion = some "success" ∨ r.status = some "in_progress" ∨ r.status = some "queued"

/-- The string `s` ends with the string `t`. -/
def EndsWith (s t : String) : Prop :=
  ∃ pre : String, s = pre ++ t

/-! ## Example data -/

/-- A cancelled run on a branch. -/
def cancelledOn (id : Int) (branch created : String) : WorkflowRun :=
  ⟨id, some branch, "0f3c9a1", created, some "completed", some "cancelled",
    "https://github.com/octo/repo/actions/runs/" ++ toString id⟩

/-- The newest run on `main`, successful. -/
def run500 : WorkflowRun :=
  ⟨500, some "main", "9e107d9", "2024-05-06T12:00:00Z", some "completed", some "success",
    "https://github.com/octo/repo/actions/runs/500"⟩

/-- Five cancelled runs on `main`, most recent first. -/
def exampleCancelledRuns : List WorkflowRun :=
  [cancelledOn 405 "main" "2024-05-05T12:00:00Z", cancelledOn 404 "main" "2024-05-04T12:00:00Z",
   cancelledOn 403 "main" "2024-05-03T12:00:00Z", cancelledOn 402 "main" "2024-05-02T12:00:00Z",
   cancelledOn 401 "main" "2024-05-01T12:00:00Z"]

/-- The recent runs of the workflow, most recent first. -/
def exampleAllRuns : List WorkflowRun :=
  run500 :: exampleCancelledRuns

/-- A cancelled run on `dev` and a newer run on `dev` that failed. -/
def run301 : WorkflowRun := cancelledOn 301 "dev" "2024-04-01T08:00:00Z"

/-- The newer run on `dev`, which failed. -/
def run302 : WorkflowRun :=
  ⟨302, some "dev", "77de68d", "2024-04-02T08:00:00Z", some "completed", some "failure",
    "https://github.com/octo/repo/actions/runs/302"⟩

/-- A newer successful run on another branch. -/
def run303 : WorkflowRun :=
  ⟨303, some "feature-x", "1b64538", "2024-04-03T08:00:00Z", some "completed", some "success",
    "https://github.com/octo/repo/actions/runs/303"⟩

/-- The workflows of the example repository. -/
def exampleWorkflows : List Workflow :=
  [⟨7, ".github/workflows/release.yml"⟩, ⟨11, ".github/workflows/ci.yml"⟩,
   ⟨12, ".github/workflows/nightly-ci.yml"⟩]

/-- An environment for the workflow `ci.yml` with the given dry-run flag and
maximum of deletions. -/
def exampleEnv (dry maxDel : Option String) : Env :=
  ⟨dry, some "ghp_example", some "octo/repo", some "ci.yml", maxDel⟩

/-- The inputs of a run in which every listing answers with the example data. -/
def exampleInputs (dry maxDel : Option String) (deleteOk : Nat → Bool) : Inputs :=
  ⟨exampleEnv dry maxDel, some exampleWorkflows, some exampleAllRuns, some exampleCancelledRuns,
    deleteOk⟩

/-! ## The classifier: lemmas -/

theorem refKey_eq_specRefKey (r : WorkflowRun) : refKey r = SpecRefKey r := by
  unfold refKey SpecRefKey jsOr
  cases r.head_branch with
  | none => rfl
  | some b => by_cases h : b = "" <;> simp [h]

theorem dateGt_iff (a b : Option Int) :
    dateGt a b = true ↔ ∃ x y, a = some x ∧ b = some y ∧ y < x := by
  cases a <;> cases b <;> simp [dateGt]

theorem isNewerRun_iff (parseDate : String → Option Int) (c r : WorkflowRun) :
    isNewerRun parseDate c r = true ↔ NewerSameRef parseDate c r := by
  unfold isNewerRun NewerSameRef StrictlyLater
  rw [← refKey_eq_specRefKey, ← refKey_eq_specRefKey]
  by_cases h1 : r.id = c.id
  · simp [h1]
  · by_cases h2 : refKey r = refKey c
    · simp [h1, h2, dateGt_iff]
    · simp [h1, h2]

theorem isQualifying_iff (r : WorkflowRun) : isQualifying r = true ↔ Qualifies r := by
  unfold isQualifying Qualifies
  simp [Bool.or_eq_true, or_assoc]

theorem isSupersededRun_iff_exists (parseDate : String → Option Int) (c : WorkflowRun)
    (allRuns : List WorkflowRun) :
    isSupersededRun parseDate c allRuns = true ↔
      ∃ r ∈ allRuns, isNewerRun parseDate c r = true ∧ isQualifying r = true := by
  unfold isSupersededRun newerRuns
  simp only [Bool.and_eq_true, decide_eq_true_eq, List.any_eq_true, List.mem_filter]
  constructor
  · rintro ⟨_, r, ⟨hr, hn⟩, hq⟩
    exact ⟨r, hr, hn, hq⟩
  · rintro ⟨r, hr, hn, hq⟩
    have hmem : r ∈ allRuns.filter (isNewerRun parseDate c) := List.mem_filter.mpr ⟨hr, hn⟩
    exact ⟨List.length_pos_of_mem hmem, r, ⟨hr, hn⟩, hq⟩

theorem isSupersededRun_eq_false_of_no_newer (parseDate : String → Option Int) (c : WorkflowRun)
    (allRuns : List WorkflowRun)
    (h : ∀ r ∈ allRuns, ¬ (NewerSameRef parseDate c r ∧ Qualifies r)) :
    isSupersededRun parseDate c allRuns = false := by
  rw [← Bool.not_eq_true, isSupersededRun_iff_exists]
  rintro ⟨r, hr, hn, hq⟩
  exact h r hr ⟨(isNewerRun_iff parseDate c r).mp hn, (isQualifying_iff r).mp hq⟩

/-! ## The classifier: the properties of the specification -/

/-- C1: for every candidate run and every list of runs, `isSupersededRun`
answers true exactly when the list holds a run with a different id, the same
RefKey (`head_branch` if present and non-empty, else `head_sha`), a strictly
later `created_at` as an instant, and a conclusion `success` or a status
`in_progress` or `queued`. -/
theorem isSupersededRun_iff (parseDate : String → Option Int) (c : WorkflowRun)
    (allRuns : List WorkflowRun) :
    isSupersededRun parseDate c allRuns = true ↔
      ∃ r ∈ allRuns, r.id ≠ c.id ∧ SpecRefKey r = SpecRefKey c ∧
        StrictlyLater parseDate r.created_at c.created_at ∧
        (r.conclusion = some "success" ∨ r.status = some "in_progress" ∨
          r.status = some "queued") := by
  rw [isSupersededRun_iff_exists]
  constructor
  · rintro ⟨r, hr, hn, hq⟩
    obtain ⟨h1, h2, h3⟩ := (isNewerRun_iff parseDate c r).mp hn
    exact ⟨r, hr, h1, h2, h3, (isQualifying_iff r).mp hq⟩
  · rintro ⟨r, hr, h1, h2, h3, hq⟩
    exact ⟨r, hr, (isNewerRun_iff parseDate c r).mpr ⟨h1, h2, h3⟩, (isQualifying_iff r).mpr hq⟩

/-- C6: if every run of the list that is newer than the candidate on the same
ref (different id, equal RefKey, strictly later `created_at`) has status
`completed` and a conclusion among `failure`, `cancelled`, `neutral`, then the
candidate is not superseded. -/
theorem isSupersededRun_false_of_newer_all_failed (parseDate : String → Option Int)
    (c : WorkflowRun) (allRuns : List WorkflowRun)
    (h : ∀ r ∈ allRuns, NewerSameRef parseDate c r →
      r.status = some "completed" ∧
        (r.conclusion = some "failure" ∨ r.conclusion = some "cancelled" ∨
          r.conclusion = some "neutral")) :
    isSupersededRun parseDate c allRuns = false := by
  apply isSupersededRun_eq_false_of_no_newer
  rintro r hr ⟨hn, hq⟩
  obtain ⟨hs, hc⟩ := h r hr hn
  rcases hq with hq | hq | hq
  · rw [hq] at hc
    rcases hc with hc | hc | hc <;> exact absurd hc (by decide)
  · rw [hq] at hs
    exact absurd hs (by decide)
  · rw [hq] at hs
    exact absurd hs (by decide)

/-- C7: if every run of the list other than the candidate has a RefKey
different from the candidate's, the candidate is not superseded, whatever the
timestamps, statuses and conclusions; in particular a cancelled run A on ref
`main` is not superseded in `[A, B]` by a newer successful run B on ref
`feature-x`. -/
theorem isSupersededRun_false_of_other_refs (parseDate : String → Option Int) :
    (∀ (c : WorkflowRun) (allRuns : List WorkflowRun),
      (∀ r ∈ allRuns, r ≠ c → SpecRefKey r ≠ SpecRefKey c) →
        isSupersededRun parseDate c allRuns = false) ∧
    (∀ (idA idB : Int) (shaA shaB t0 t1 urlA urlB : String),
      let A : WorkflowRun := ⟨idA, some "main", shaA, t0, some "completed", some "cancelled", urlA⟩
      let B : WorkflowRun := ⟨idB, some "feature-x", shaB, t1, some "completed", some "success", urlB⟩
      isSupersededRun parseDate A [A, B] = false) := by
  have key : ∀ (c : WorkflowRun) (allRuns : List WorkflowRun),
      (∀ r ∈ allRuns, r ≠ c → SpecRefKey r ≠ SpecRefKey c) →
        isSupersededRun parseDate c allRuns = false := by
    intro c allRuns h
    apply isSupersededRun_eq_false_of_no_newer
    rintro r hr ⟨⟨hid, href, _⟩, _⟩
    have hne : r ≠ c := fun e => hid (by rw [e])
    exact h r hr hne href
  refine ⟨key, ?_⟩
  intro idA idB shaA shaB t0 t1 urlA urlB A B
  apply key
  intro r hr hne
  simp only [List.mem_cons, List.mem_singleton, List.not_mem_nil, or_false] at hr
  rcases hr with rfl | rfl
  · exact absurd rfl hne
  · simp [B, A, SpecRefKey]

/-- C8: if every run of the list has a `created_at` earlier than or equal to
the candidate's, the candidate is not superseded, whatever the refs, statuses
and conclusions. -/
theorem isSupersededRun_false_of_none_later (parseDate : String → Option Int)
    (c : WorkflowRun) (allRuns : List WorkflowRun)
    (h : ∀ r ∈ allRuns, EarlierOrEqual parseDate r.created_at c.created_at) :
    isSupersededRun parseDate c allRuns = false := by
  apply isSupersededRun_eq_false_of_no_newer
  rintro r hr ⟨⟨_, _, ta, tb, h1, h2, hlt⟩, _⟩
  obtain ⟨ta', tb', h1', h2', hle⟩ := h r hr
  rw [h1] at h1'
  rw [h2] at h2'
  cases h1'
  cases h2'
  omega

/-! ## The pipeline: lemmas -/

theorem endsWith_iff (s t : String) : endsWith s t = true ↔ EndsWith s t := by
  unfold endsWith EndsWith
  rw [List.isSuffixOf_iff_suffix]
  constructor
  · rintro ⟨l, hl⟩
    exact ⟨⟨l⟩, String.ext (by simp [hl])⟩
  · rintro ⟨pre, rfl⟩
    exact ⟨pre.data, by simp⟩

theorem slice_zero_nonneg {α : Type} (xs : List α) (n : Int) (hn : 0 ≤ n) :
    slice xs 0 (some n) = xs.take n.toNat := by
  unfold slice toIntegerOrInfinity
  simp only [Option.getD_some, lt_self_iff_false, if_false, not_lt.mpr hn]
  have h0 : min (0 : Int) (xs.length : Int) = 0 := by omega
  simp only [h0, Int.toNat_zero, List.drop_zero, sub_zero]
  by_cases h : n ≤ xs.length
  · have : max (min n (xs.length : Int)) 0 = n := by omega
    rw [this]
  · have : max (min n (xs.length : Int)) 0 = xs.length := by omega
    rw [this, Int.toNat_ofNat, List.take_length]
    rw [List.take_of_length_le]
    omega

theorem slice_sublist {α : Type} (xs : List α) (start : Int) (stop : Option Int) :
    (slice xs start stop).Sublist xs := by
  unfold slice
  exact (List.take_sublist _ _).trans (List.drop_sublist _ _)

theorem mem_supersededRuns (parseDate : String → Option Int) (allRuns cancelledRuns : List WorkflowRun)
    (run : WorkflowRun) :
    run ∈ supersededRuns parseDate allRuns cancelledRuns ↔
      run ∈ cancelledRuns ∧ isSupersededRun parseDate run allRuns = true := by
  unfold supersededRuns
  exact List.mem_filter

theorem mem_runsToDelete (parseDate : String → Option Int) (env : Env)
    (allRuns cancelledRuns : List WorkflowRun) (run : WorkflowRun)
    (h : run ∈ runsToDelete parseDate env allRuns cancelledRuns) :
    run ∈ cancelledRuns ∧ isSupersededRun parseDate run allRuns = true :=
  (mem_supersededRuns parseDate allRuns cancelledRuns run).mp ((slice_sublist _ _ _).subset h)

theorem runsToDelete_congr (parseDate : String → Option Int) (env env2 : Env)
    (allRuns cancelledRuns : List WorkflowRun)
    (h : env2.INPUT_MAX_DELETIONS = env.INPUT_MAX_DELETIONS) :
    runsToDelete parseDate env2 allRuns cancelledRuns =
      runsToDelete parseDate env allRuns cancelledRuns := by
  unfold runsToDelete maxDeletions
  rw [h]

theorem deletionStage_dry (env : Env) (runs : List WorkflowRun) (h : dryRun env = true) :
    deletionStage env runs =
      runs.map (fun run => Effect.log ("[DRY-RUN] Would delete: " ++ run.html_url)) := by
  unfold deletionStage
  induction runs with
  | nil => rfl
  | cons r rs ih => simp [deleteOne, h] at ih ⊢; exact ih

theorem filter_deletionStage_dry (env : Env) (runs : List WorkflowRun) (h : dryRun env = true) :
    (deletionStage env runs).filter isDeleteRequest = [] := by
  rw [deletionStage_dry env runs h]
  induction runs with
  | nil => rfl
  | cons r rs ih => simp [isDeleteRequest] at ih ⊢

theorem filter_deletionStage_live (env : Env) (runs : List WorkflowRun) (h : dryRun env = false) :
    (deletionStage env runs).filter isDeleteRequest =
      runs.map (fun run => Effect.request "DELETE" (deletePath env run)) := by
  unfold deletionStage
  induction runs with
  | nil => rfl
  | cons r rs ih =>
    simp only [List.map_cons, List.flatten_cons, List.filter_append, ih]
    simp [deleteOne, h, isDeleteRequest]

theorem main_fetched (parseDate : String → Option Int) (env : Env) (workflows : List Workflow)
    (workflow : Workflow) (allRuns cancelledRuns : List WorkflowRun) (deleteOk : Nat → Bool)
    (hw : findWorkflow env workflows = some workflow) :
    main parseDate ⟨env, some workflows, some allRuns, some cancelledRuns, deleteOk⟩ =
      if promiseAllResolves env deleteOk (runsToDelete parseDate env allRuns cancelledRuns) then
        ⟨banner env ++
          [workflowsRequest env, allRunsRequest env workflow, cancelledRunsRequest env workflow] ++
          countLines cancelledRuns (supersededRuns parseDate allRuns cancelledRuns) ++
          deletionStage env (runsToDelete parseDate env allRuns cancelledRuns) ++
          [Effect.log (summaryLine env (runsToDelete parseDate env allRuns cancelledRuns))],
          Outcome.completed⟩
      else
        ⟨banner env ++
          [workflowsRequest env, allRunsRequest env workflow, cancelledRunsRequest env workflow] ++
          countLines cancelledRuns (supersededRuns parseDate allRuns cancelledRuns) ++
          deletionStage env (runsToDelete parseDate env allRuns cancelledRuns),
          Outcome.rejected⟩ := by
  simp only [main, hw]
  split <;> simp [List.append_assoc]

theorem filter_listing (env : Env) (workflow : Workflow) (cancelledRuns superseded : List WorkflowRun) :
    (banner env ++
      [workflowsRequest env, allRunsRequest env workflow, cancelledRunsRequest env workflow] ++
      countLines cancelledRuns superseded).filter isDeleteRequest = [] := by
  unfold banner workflowsRequest allRunsRequest cancelledRunsRequest countLines
  by_cases h : dryRun env = true <;> simp [h, isDeleteRequest]

theorem deleteRequests_main_fetched (parseDate : String → Option Int) (env : Env)
    (workflows : List Workflow) (workflow : Workflow) (allRuns cancelledRuns : List WorkflowRun)
    (deleteOk : Nat → Bool) (hw : findWorkflow env workflows = some workflow) :
    deleteRequests (main parseDate ⟨env, some workflows, some allRuns, some cancelledRuns, deleteOk⟩) =
      (deletionStage env (runsToDelete parseDate env allRuns cancelledRuns)).filter
        isDeleteRequest := by
  rw [main_fetched parseDate env workflows workflow allRuns cancelledRuns deleteOk hw]
  unfold deleteRequests
  split
  · rw [List.filter_append, List.filter_append, filter_listing]
    simp [isDeleteRequest]
  · rw [List.filter_append, filter_listing]
    simp

theorem deleteRequests_main_cases (parseDate : String → Option Int) (inp : Inputs) :
    deleteRequests (main parseDate inp) = [] ∨
      ∃ workflows workflow allRuns cancelledRuns,
        inp.workflows = some workflows ∧ findWorkflow inp.env workflows = some workflow ∧
        inp.allRuns = some allRuns ∧ inp.cancelledRuns = some cancelledRuns ∧
        deleteRequests (main parseDate inp) =
          (deletionStage inp.env (runsToDelete parseDate inp.env allRuns cancelledRuns)).filter
            isDeleteRequest := by
  obtain ⟨env, ows, oar, ocr, ok⟩ := inp
  have hb : (banner env).filter isDeleteRequest = [] := by
    unfold banner
    by_cases h : dryRun env = true <;> simp [h, isDeleteRequest]
  cases ows with
  | none =>
    left
    simp [main, deleteRequests, List.filter_append, hb, workflowsRequest, isDeleteRequest]
  | some ws =>
    cases hw : findWorkflow env ws with
    | none =>
      left
      simp [main, hw, deleteRequests, List.filter_append, hb, workflowsRequest, notFoundLine,
        isDeleteRequest]
    | some w =>
      cases oar with
      | none =>
        left
        simp [main, hw, deleteRequests, List.filter_append, hb, workflowsRequest, allRunsRequest,
          isDeleteRequest]
      | some ar =>
        cases ocr with
        | none =>
          left
          simp [main, hw, deleteRequests, List.filter_append, hb, workflowsRequest, allRunsRequest,
            cancelledRunsRequest, isDeleteRequest]
        | some cr =>
          right
          exact ⟨ws, w, ar, cr, rfl, hw, rfl, rfl,
            deleteRequests_main_fetched parseDate env ws w ar cr ok hw⟩

theorem head_summaryLine (env : Env) (runs : List WorkflowRun) :
    (summaryLine env runs).data.head? = some '✨' := by
  simp [summaryLine, String.data_append]

theorem summary_not_mem_countLines (env : Env) (runs cancelledRuns superseded : List WorkflowRun) :
    Effect.log (summaryLine env runs) ∉ countLines cancelledRuns superseded := by
  intro h
  have hh := head_summaryLine env runs
  simp only [countLines, List.mem_cons, List.mem_singleton, List.not_mem_nil, or_false,
    Effect.log.injEq] at h
  rcases h with h | h | h <;> rw [h] at hh <;> simp [String.data_append] at hh

theorem summary_not_mem_deletionStage_live (env : Env) (runs toDelete : List WorkflowRun)
    (hdry : dryRun env = false) :
    Effect.log (summaryLine env runs) ∉ deletionStage env toDelete := by
  intro h
  have hh := head_summaryLine env runs
  unfold deletionStage at h
  obtain ⟨l, hl, hmem⟩ := List.mem_flatten.mp h
  obtain ⟨run, _, rfl⟩ := List.mem_map.mp hl
  simp only [deleteOne, hdry, Bool.false_eq_true, if_false, List.mem_cons, List.mem_singleton,
    List.not_mem_nil, or_false, Effect.log.injEq] at hmem
  rcases hmem with h1 | h1
  · rw [h1] at hh
    simp [String.data_append] at hh
  · exact Effect.noConfusion h1

theorem error_not_mem_deletionStage (env : Env) (line : String) (runs : List WorkflowRun) :
    Effect.error line ∉ deletionStage env runs := by
  intro h
  unfold deletionStage at h
  obtain ⟨l, hl, hmem⟩ := List.mem_flatten.mp h
  obtain ⟨run, _, rfl⟩ := List.mem_map.mp hl
  unfold deleteOne at hmem
  split at hmem <;> simp at hmem

theorem promiseAllResolves_live (env : Env) (deleteOk : Nat → Bool) (runs : List WorkflowRun)
    (hdry : dryRun env = false) :
    promiseAllResolves env deleteOk runs = true ↔ ∀ i < runs.length, deleteOk i = true := by
  simp [promiseAllResolves, hdry, List.all_eq_true]

theorem findWorkflow_eq_none_iff (env : Env) (workflows : List Workflow) :
    findWorkflow env workflows = none ↔
      ∀ w ∈ workflows, ¬ EndsWith w.path (envStr env.INPUT_WORKFLOW_FILE) := by
  unfold findWorkflow
  rw [List.find?_eq_none]
  simp only [endsWith_iff]

/-! ## The pipeline: the properties of the specification -/

/-- C2: with dry-run disabled, every delete request the pipeline issues is the
request for a run of the cancelled-run list for which `isSupersededRun` is true
against `allRuns`; the requests are those of the list `runsToDelete`, and a
cancelled run with no strictly newer same-ref run in `allRuns` is not in it. -/
theorem delete_requests_only_for_superseded (parseDate : String → Option Int) (inp : Inputs)
    (hdry : dryRun inp.env = false) :
    (∀ e ∈ deleteRequests (main parseDate inp),
      ∃ allRuns cancelledRuns run,
        inp.allRuns = some allRuns ∧ inp.cancelledRuns = some cancelledRuns ∧
        run ∈ cancelledRuns ∧ isSupersededRun parseDate run allRuns = true ∧
        e = Effect.request "DELETE" (deletePath inp.env run)) ∧
    (∀ workflows workflow allRuns cancelledRuns,
      inp.workflows = some workflows → findWorkflow inp.env workflows = some workflow →
      inp.allRuns = some allRuns → inp.cancelledRuns = some cancelledRuns →
        deleteRequests (main parseDate inp) =
          (runsToDelete parseDate inp.env allRuns cancelledRuns).map
            (fun run => Effect.request "DELETE" (deletePath inp.env run)) ∧
        ∀ c, (∀ r ∈ allRuns, ¬ NewerSameRef parseDate c r) →
          c ∉ runsToDelete parseDate inp.env allRuns cancelledRuns) := by
  constructor
  · intro e he
    rcases deleteRequests_main_cases parseDate inp with h | ⟨ws, w, ar, cr, _, _, har, hcr, h⟩
    · rw [h] at he
      exact absurd he (List.not_mem_nil e)
    · rw [h, filter_deletionStage_live inp.env _ hdry] at he
      obtain ⟨run, hrun, rfl⟩ := List.mem_map.mp he
      obtain ⟨hmem, hsup⟩ := mem_runsToDelete parseDate inp.env ar cr run hrun
      exact ⟨ar, cr, run, har, hcr, hmem, hsup, rfl⟩
  · intro ws w ar cr hws hw har hcr
    obtain ⟨env, ows, oar, ocr, ok⟩ := inp
    simp only at hws har hcr hw hdry ⊢
    subst hws har hcr
    refine ⟨?_, ?_⟩
    · rw [deleteRequests_main_fetched parseDate env ws w ar cr ok hw,
        filter_deletionStage_live env _ hdry]
    · intro c hc hmem
      have hsup := (mem_runsToDelete parseDate env ar cr c hmem).2
      rw [isSupersededRun_eq_false_of_no_newer parseDate c ar (fun r hr h => hc r hr h.1)] at hsup
      exact absurd hsup (by decide)

/-- C3, evaluated at a negative maximum: with `INPUT_MAX-DELETIONS` set to `-1`
and five superseded cancelled runs, `slice(0, -1)` keeps all but the last run and
the pipeline issues four delete requests. -/
theorem negative_maxDeletions_issues_four_deletes :
    maxDeletions (exampleEnv none (some "-1")) = some (-1) ∧
    (supersededRuns parseDateUTC exampleAllRuns exampleCancelledRuns).length = 5 ∧
    (deleteRequests (main parseDateUTC (exampleInputs none (some "-1") (fun _ => true)))).length
      = 4 := by
  decide

/-- C4: for a non-negative maximum `n`, the runs acted on are the first
`min n length` entries of the superseded list, in the same order: none for
`n = 0`, the whole list when it is not longer than `n`, the first three of five
for `n = 3`; with dry-run disabled the delete requests are those of these runs,
in order. -/
theorem runsToDelete_eq_take (parseDate : String → Option Int) (env : Env)
    (allRuns cancelledRuns : List WorkflowRun) (n : Int)
    (hmax : maxDeletions env = some n) (hn : 0 ≤ n) :
    runsToDelete parseDate env allRuns cancelledRuns =
      (supersededRuns parseDate allRuns cancelledRuns).take
        (min n.toNat (supersededRuns parseDate allRuns cancelledRuns).length) ∧
    (runsToDelete parseDate env allRuns cancelledRuns).length =
      min n.toNat (supersededRuns parseDate allRuns cancelledRuns).length ∧
    (n = 0 → runsToDelete parseDate env allRuns cancelledRuns = []) ∧
    (((supersededRuns parseDate allRuns cancelledRuns).length : Int) ≤ n →
      runsToDelete parseDate env allRuns cancelledRuns =
        supersededRuns parseDate allRuns cancelledRuns) ∧
    (n = 3 → ∀ a b c d e, supersededRuns parseDate allRuns cancelledRuns = [a, b, c, d, e] →
      runsToDelete parseDate env allRuns cancelledRuns = [a, b, c]) ∧
    (∀ workflows workflow deleteOk, findWorkflow env workflows = some workflow →
      dryRun env = false →
      deleteRequests
          (main parseDate ⟨env, some workflows, some allRuns, some cancelledRuns, deleteOk⟩) =
        ((supersededRuns parseDate allRuns cancelledRuns).take n.toNat).map
          (fun run => Effect.request "DELETE" (deletePath env run))) := by
  have key : runsToDelete parseDate env allRuns cancelledRuns =
      (supersededRuns parseDate allRuns cancelledRuns).take n.toNat := by
    unfold runsToDelete
    rw [hmax, slice_zero_nonneg _ n hn]
  refine ⟨?_, ?_, ?_, ?_, ?_, ?_⟩
  · rw [key]
    by_cases h : n.toNat ≤ (supersededRuns parseDate allRuns cancelledRuns).length
    · rw [Nat.min_eq_left h]
    · have h2 : (supersededRuns parseDate allRuns cancelledRuns).length ≤ n.toNat := by omega
      rw [Nat.min_eq_right h2, List.take_length, List.take_of_length_le h2]
  · rw [key, List.length_take]
  · intro h0
    rw [key, h0]
    rfl
  · intro hle
    rw [key]
    apply List.take_of_length_le
    omega
  · intro h3 a b c d e hs
    rw [key, h3, hs]
    rfl
  · intro ws w ok hw hdry
    rw [deleteRequests_main_fetched parseDate env ws w allRuns cancelledRuns ok hw,
      filter_deletionStage_live env _ hdry, key]

/-- C5: with dry-run enabled the pipeline issues no delete request on any
input; when the listings answer, its trace is the banner, the three listing
requests, the three counts, one would-delete line for each run of `runsToDelete`
in order, and the summary with their number; these are the runs whose delete
requests are issued, in the same order, when dry-run is disabled. -/
theorem dry_run_issues_no_delete (parseDate : String → Option Int) (inp : Inputs)
    (hdry : dryRun inp.env = true) :
    deleteRequests (main parseDate inp) = [] ∧
    (∀ workflows workflow allRuns cancelledRuns,
      inp.workflows = some workflows → findWorkflow inp.env workflows = some workflow →
      inp.allRuns = some allRuns → inp.cancelledRuns = some cancelledRuns →
        main parseDate inp =
          ⟨[Effect.log "🔍 DRY-RUN MODE: Will only log, not delete",
            workflowsRequest inp.env, allRunsRequest inp.env workflow,
            cancelledRunsRequest inp.env workflow] ++
            countLines cancelledRuns (supersededRuns parseDate allRuns cancelledRuns) ++
            (runsToDelete parseDate inp.env allRuns cancelledRuns).map
              (fun run => Effect.log ("[DRY-RUN] Would delete: " ++ run.html_url)) ++
            [Effect.log ("✨ Cleanup complete: " ++
              toString (runsToDelete parseDate inp.env allRuns cancelledRuns).length ++
              " superseded run(s) would be deleted")],
            Outcome.completed⟩ ∧
        ∀ (env2 : Env) (deleteOk2 : Nat → Bool),
          env2.INPUT_MAX_DELETIONS = inp.env.INPUT_MAX_DELETIONS →
          env2.INPUT_WORKFLOW_FILE = inp.env.INPUT_WORKFLOW_FILE →
          dryRun env2 = false →
            deleteRequests
                (main parseDate ⟨env2, some workflows, some allRuns, some cancelledRuns, deleteOk2⟩) =
              (runsToDelete parseDate inp.env allRuns cancelledRuns).map
                (fun run => Effect.request "DELETE" (deletePath env2 run))) := by
  constructor
  · rcases deleteRequests_main_cases parseDate inp with h | ⟨ws, w, ar, cr, _, _, _, _, h⟩
    · exact h
    · rw [h, filter_deletionStage_dry inp.env _ hdry]
  · intro ws w ar cr hws hw har hcr
    obtain ⟨env, ows, oar, ocr, ok⟩ := inp
    simp only at hws har hcr hw hdry ⊢
    subst hws har hcr
    constructor
    · rw [main_fetched parseDate env ws w ar cr ok hw]
      have hres : promiseAllResolves env ok (runsToDelete parseDate env ar cr) = true := by
        simp [promiseAllResolves, hdry]
      rw [if_pos hres, deletionStage_dry env _ hdry]
      simp [banner, hdry, summaryLine, String.append_assoc]
    · intro env2 ok2 hmaxeq hfile hlive
      have hw2 : findWorkflow env2 ws = some w := by
        unfold findWorkflow at hw ⊢
        rw [hfile]
        exact hw
      rw [deleteRequests_main_fetched parseDate env2 ws w ar cr ok2 hw2,
        filter_deletionStage_live env2 _ hlive,
        runsToDelete_congr parseDate env env2 ar cr hmaxeq]

/-- C9: when the listing of the workflows answers, the lookup selects the first
workflow whose path ends with the configured suffix and the runs of that
workflow are requested; the script prints the not-found error and exits with
code 1 exactly when no path ends with the suffix, and then its whole trace is the
banner (in a dry run), the listing request and the error line: no run is
fetched, classified or deleted. -/
theorem workflow_resolution (parseDate : String → Option Int) (inp : Inputs)
    (workflows : List Workflow) (hws : inp.workflows = some workflows) :
    (∀ w, findWorkflow inp.env workflows = some w →
      (∃ before after, workflows = before ++ w :: after ∧
        ∀ v ∈ before, ¬ EndsWith v.path (envStr inp.env.INPUT_WORKFLOW_FILE)) ∧
      EndsWith w.path (envStr inp.env.INPUT_WORKFLOW_FILE) ∧
      allRunsRequest inp.env w ∈ (main parseDate inp).effects) ∧
    ((main parseDate inp).outcome = Outcome.exited 1 ↔
      ∀ w ∈ workflows, ¬ EndsWith w.path (envStr inp.env.INPUT_WORKFLOW_FILE)) ∧
    (notFoundLine inp.env ∈ (main parseDate inp).effects ↔
      ∀ w ∈ workflows, ¬ EndsWith w.path (envStr inp.env.INPUT_WORKFLOW_FILE)) ∧
    ((∀ w ∈ workflows, ¬ EndsWith w.path (envStr inp.env.INPUT_WORKFLOW_FILE)) →
      main parseDate inp =
        ⟨banner inp.env ++ [workflowsRequest inp.env, notFoundLine inp.env], Outcome.exited 1⟩ ∧
      deleteRequests (main parseDate inp) = []) := by
  obtain ⟨env, ows, oar, ocr, ok⟩ := inp
  simp only at hws ⊢
  subst hws
  have hnone : findWorkflow env workflows = none →
      main parseDate ⟨env, some workflows, oar, ocr, ok⟩ =
        ⟨banner env ++ [workflowsRequest env, notFoundLine env], Outcome.exited 1⟩ := by
    intro h
    simp [main, h]
  have hbanner : ∀ line, Effect.error line ∉ banner env := by
    intro line
    unfold banner
    split <;> simp
  have hsome : ∀ w, findWorkflow env workflows = some w →
      (main parseDate ⟨env, some workflows, oar, ocr, ok⟩).outcome ≠ Outcome.exited 1 ∧
      notFoundLine env ∉ (main parseDate ⟨env, some workflows, oar, ocr, ok⟩).effects ∧
      allRunsRequest env w ∈ (main parseDate ⟨env, some workflows, oar, ocr, ok⟩).effects := by
    intro w hw
    have hb := hbanner ("Workflow " ++ envStr env.INPUT_WORKFLOW_FILE ++ " not found")
    have hd := error_not_mem_deletionStage env
      ("Workflow " ++ envStr env.INPUT_WORKFLOW_FILE ++ " not found")
    cases oar with
    | none => simp [main, hw, notFoundLine, workflowsRequest, allRunsRequest, hb]
    | some ar =>
      cases ocr with
      | none =>
        simp [main, hw, notFoundLine, workflowsRequest, allRunsRequest, cancelledRunsRequest, hb]
      | some cr =>
        simp only [main, hw]
        split <;>
          simp [notFoundLine, workflowsRequest, allRunsRequest, cancelledRunsRequest, countLines,
            hb, hd]
  refine ⟨?_, ?_, ?_, ?_⟩
  · intro w hw
    refine ⟨?_, ?_, (hsome w hw).2.2⟩
    · unfold findWorkflow at hw
      obtain ⟨_, before, after, hsplit, hbefore⟩ := List.find?_eq_some.mp hw
      refine ⟨before, after, hsplit, ?_⟩
      intro v hv hends
      have := hbefore v hv
      rw [(endsWith_iff _ _).mpr hends] at this
      simp at this
    · unfold findWorkflow at hw
      have hfound := List.find?_some hw
      exact (endsWith_iff _ _).mp hfound
  · rw [← findWorkflow_eq_none_iff]
    constructor
    · intro hout
      cases hw : findWorkflow env workflows with
      | none => rfl
      | some w => exact absurd hout (hsome w hw).1
    · intro h
      rw [hnone h]
  · rw [← findWorkflow_eq_none_iff]
    constructor
    · intro hmem
      cases hw : findWorkflow env workflows with
      | none => rfl
      | some w => exact absurd hmem (hsome w hw).2.1
    · intro h
      rw [hnone h]
      simp
  · intro h
    have hn := (findWorkflow_eq_none_iff env workflows).mpr h
    refine ⟨hnone hn, ?_⟩
    rcases deleteRequests_main_cases parseDate ⟨env, some workflows, oar, ocr, ok⟩ with
      hd | ⟨ws, w, _, _, hws, hw, _, _, _⟩
    · exact hd
    · simp only [Option.some.injEq] at hws
      subst hws
      rw [hn] at hw
      exact absurd hw (by simp)

/-- C10, as the code has it: with dry-run disabled and the listings answered,
the delete request of every selected run is issued, in order, whatever the fate
of each request; the completion summary is printed, and the script runs to its
end, exactly when every delete request resolves; when one rejects, the script
ends with an uncaught rejection after the deletion stage, with a trace that does
not depend on which request rejected. -/
theorem delete_failure_keeps_requests_drops_summary (parseDate : String → Option Int)
    (env : Env) (workflows : List Workflow) (workflow : Workflow)
    (allRuns cancelledRuns : List WorkflowRun) (deleteOk : Nat → Bool)
    (hdry : dryRun env = false) (hw : findWorkflow env workflows = some workflow) :
    deleteRequests
        (main parseDate ⟨env, some workflows, some allRuns, some cancelledRuns, deleteOk⟩) =
      (runsToDelete parseDate env allRuns cancelledRuns).map
        (fun run => Effect.request "DELETE" (deletePath env run)) ∧
    (Effect.log (summaryLine env (runsToDelete parseDate env allRuns cancelledRuns)) ∈
        (main parseDate ⟨env, some workflows, some allRuns, some cancelledRuns, deleteOk⟩).effects ↔
      ∀ i < (runsToDelete parseDate env allRuns cancelledRuns).length, deleteOk i = true) ∧
    ((main parseDate ⟨env, some workflows, some allRuns, some cancelledRuns, deleteOk⟩).outcome =
        Outcome.completed ↔
      ∀ i < (runsToDelete parseDate env allRuns cancelledRuns).length, deleteOk i = true) ∧
    ((∃ i, i < (runsToDelete parseDate env allRuns cancelledRuns).length ∧ deleteOk i = false) →
      main parseDate ⟨env, some workflows, some allRuns, some cancelledRuns, deleteOk⟩ =
        ⟨[workflowsRequest env, allRunsRequest env workflow, cancelledRunsRequest env workflow] ++
          countLines cancelledRuns (supersededRuns parseDate allRuns cancelledRuns) ++
          deletionStage env (runsToDelete parseDate env allRuns cancelledRuns),
          Outcome.rejected⟩) := by
  have hb : banner env = [] := by simp [banner, hdry]
  have hres := promiseAllResolves_live env deleteOk (runsToDelete parseDate env allRuns cancelledRuns)
    hdry
  have hmain := main_fetched parseDate env workflows workflow allRuns cancelledRuns deleteOk hw
  rw [hb, List.nil_append] at hmain
  have hnc := summary_not_mem_countLines env (runsToDelete parseDate env allRuns cancelledRuns)
    cancelledRuns (supersededRuns parseDate allRuns cancelledRuns)
  have hnd := summary_not_mem_deletionStage_live env
    (runsToDelete parseDate env allRuns cancelledRuns)
    (runsToDelete parseDate env allRuns cancelledRuns) hdry
  refine ⟨?_, ?_, ?_, ?_⟩
  · rw [deleteRequests_main_fetched parseDate env workflows workflow allRuns cancelledRuns
      deleteOk hw, filter_deletionStage_live env _ hdry]
  · rw [← hres, hmain]
    by_cases hall : promiseAllResolves env deleteOk
        (runsToDelete parseDate env allRuns cancelledRuns) = true
    · simp [hall]
    · simp [hall, hnc, hnd, workflowsRequest, allRunsRequest, cancelledRunsRequest]
  · rw [← hres, hmain]
    by_cases hall : promiseAllResolves env deleteOk
        (runsToDelete parseDate env allRuns cancelledRuns) = true
    · simp [hall]
    · simp [hall]
  · rintro ⟨i, hi, hfail⟩
    have hall : ¬ promiseAllResolves env deleteOk
        (runsToDelete parseDate env allRuns cancelledRuns) = true := by
      rw [hres]
      intro h
      rw [h i hi] at hfail
      exact absurd hfail (by decide)
    rw [hmain, if_neg hall]

/-! ## The properties at the example data -/

/-- The hypothesis and the conclusion of C2 at the example data with a maximum
of three deletions. -/
theorem delete_requests_only_for_superseded_witness :
    dryRun (exampleInputs none (some "3") (fun _ => true)).env = false ∧
    deleteRequests (main parseDateUTC (exampleInputs none (some "3") (fun _ => true))) =
      [Effect.request "DELETE" "/repos/octo/repo/actions/runs/405",
       Effect.request "DELETE" "/repos/octo/repo/actions/runs/404",
       Effect.request "DELETE" "/repos/octo/repo/actions/runs/403"] ∧
    ∀ e ∈ deleteRequests (main parseDateUTC (exampleInputs none (some "3") (fun _ => true))),
      ∃ allRuns cancelledRuns run,
        (exampleInputs none (some "3") (fun _ => true)).allRuns = some allRuns ∧
        (exampleInputs none (some "3") (fun _ => true)).cancelledRuns = some cancelledRuns ∧
        run ∈ cancelledRuns ∧ isSupersededRun parseDateUTC run allRuns = true ∧
        e = Effect.request "DELETE"
          (deletePath (exampleInputs none (some "3") (fun _ => true)).env run) :=
  ⟨by decide, by decide,
    (delete_requests_only_for_superseded parseDateUTC
      (exampleInputs none (some "3") (fun _ => true)) (by decide)).1⟩

/-- The hypotheses and the conclusion of C4 at the example data: five
superseded runs and a maximum of three. -/
theorem runsToDelete_eq_take_witness :
    maxDeletions (exampleEnv none (some "3")) = some 3 ∧ (0 : Int) ≤ 3 ∧
    supersededRuns parseDateUTC exampleAllRuns exampleCancelledRuns = exampleCancelledRuns ∧
    runsToDelete parseDateUTC (exampleEnv none (some "3")) exampleAllRuns exampleCancelledRuns =
      (supersededRuns parseDateUTC exampleAllRuns exampleCancelledRuns).take
        (min (3 : Int).toNat
          (supersededRuns parseDateUTC exampleAllRuns exampleCancelledRuns).length) :=
  ⟨by decide, by decide, by decide,
    (runsToDelete_eq_take parseDateUTC (exampleEnv none (some "3")) exampleAllRuns
      exampleCancelledRuns 3 (by decide) (by decide)).1⟩

/-- The hypothesis and the conclusion of C5 at the example data in a dry run. -/
theorem dry_run_issues_no_delete_witness :
    dryRun (exampleInputs (some "true") (some "3") (fun _ => true)).env = true ∧
    deleteRequests (main parseDateUTC (exampleInputs (some "true") (some "3") (fun _ => true))) =
      [] ∧
    main parseDateUTC (exampleInputs (some "true") (some "3") (fun _ => true)) =
      ⟨[Effect.log "🔍 DRY-RUN MODE: Will only log, not delete",
        Effect.request "GET" "/repos/octo/repo/actions/workflows",
        Effect.request "GET" "/repos/octo/repo/actions/workflows/11/runs?per_page=100",
        Effect.request "GET"
          "/repos/octo/repo/actions/workflows/11/runs?status=cancelled&per_page=100",
        Effect.log "Found 5 cancelled runs",
        Effect.log "Identified 5 as superseded (will delete)",
        Effect.log "Keeping 0 cancelled runs (not superseded)",
        Effect.log "[DRY-RUN] Would delete: https://github.com/octo/repo/actions/runs/405",
        Effect.log "[DRY-RUN] Would delete: https://github.com/octo/repo/actions/runs/404",
        Effect.log "[DRY-RUN] Would delete: https://github.com/octo/repo/actions/runs/403",
        Effect.log "✨ Cleanup complete: 3 superseded run(s) would be deleted"],
        Outcome.completed⟩ :=
  ⟨by decide,
    (dry_run_issues_no_delete parseDateUTC
      (exampleInputs (some "true") (some "3") (fun _ => true)) (by decide)).1,
    by decide⟩

/-- The hypothesis and the conclusion of C6 at the example data: the only newer
run on `dev` failed, and it is newer on the same ref. -/
theorem isSupersededRun_false_of_newer_all_failed_witness :
    NewerSameRef parseDateUTC run301 run302 ∧
    isSupersededRun parseDateUTC run301 [run303, run302, run301] = false :=
  ⟨⟨by decide, by decide, 1712044800000, 1711958400000, by decide, by decide, by decide⟩,
    isSupersededRun_false_of_newer_all_failed parseDateUTC run301 [run303, run302, run301]
      (by
        intro r hr hn
        simp only [List.mem_cons, List.mem_singleton, List.not_mem_nil, or_false] at hr
        rcases hr with rfl | rfl | rfl
        · exact absurd hn.2.1 (by decide)
        · exact ⟨by decide, Or.inl (by decide)⟩
        · exact absurd rfl hn.1)⟩

/-- The hypothesis and the conclusion of C7 at the example data: the only other
run is on another ref. -/
theorem isSupersededRun_false_of_other_refs_witness :
    (∀ r ∈ [run301, run303], r ≠ run301 → SpecRefKey r ≠ SpecRefKey run301) ∧
    isSupersededRun parseDateUTC run301 [run301, run303] = false :=
  ⟨by decide,
    (isSupersededRun_false_of_other_refs parseDateUTC).1 run301 [run301, run303] (by decide)⟩

/-- The hypothesis and the conclusion of C8 at the example data: no run is
later than the newest one. -/
theorem isSupersededRun_false_of_none_later_witness :
    EarlierOrEqual parseDateUTC "2024-05-01T12:00:00Z" run500.created_at ∧
    isSupersededRun parseDateUTC run500 exampleAllRuns = false :=
  ⟨⟨1714564800000, 1714996800000, by decide, by decide, by decide⟩,
    isSupersededRun_false_of_none_later parseDateUTC run500 exampleAllRuns
      (by
        intro r hr
        simp only [exampleAllRuns, exampleCancelledRuns, List.mem_cons, List.mem_singleton,
          List.not_mem_nil, or_false] at hr
        rcases hr with rfl | rfl | rfl | rfl | rfl | rfl
        · exact ⟨1714996800000, 1714996800000, by decide, by decide, by decide⟩
        · exact ⟨1714910400000, 1714996800000, by decide, by decide, by decide⟩
        · exact ⟨1714824000000, 1714996800000, by decide, by decide, by decide⟩
        · exact ⟨1714737600000, 1714996800000, by decide, by decide, by decide⟩
        · exact ⟨1714651200000, 1714996800000, by decide, by decide, by decide⟩
        · exact ⟨1714564800000, 1714996800000, by decide, by decide, by decide⟩)⟩

/-- The hypothesis and the conclusion of C9 at the example data: with the suffix
`ci.yml` the second workflow is selected although the third matches too, and
with a suffix no path ends with the script stops after the first listing. -/
theorem workflow_resolution_witness :
    (exampleInputs none none (fun _ => true)).workflows = some exampleWorkflows ∧
    findWorkflow (exampleEnv none none) exampleWorkflows =
      some ⟨11, ".github/workflows/ci.yml"⟩ ∧
    main parseDateUTC
        ⟨⟨none, none, some "octo/repo", some "deploy.yml", none⟩, some exampleWorkflows,
          some exampleAllRuns, some exampleCancelledRuns, fun _ => true⟩ =
      ⟨[Effect.request "GET" "/repos/octo/repo/actions/workflows",
        Effect.error "Workflow deploy.yml not found"], Outcome.exited 1⟩ ∧
    ((main parseDateUTC (exampleInputs none none (fun _ => true))).outcome = Outcome.exited 1 ↔
      ∀ w ∈ exampleWorkflows,
        ¬ EndsWith w.path (envStr (exampleInputs none none (fun _ => true)).env.INPUT_WORKFLOW_FILE)) :=
  ⟨rfl, by decide, by decide,
    (workflow_resolution parseDateUTC (exampleInputs none none (fun _ => true)) exampleWorkflows
      rfl).2.1⟩

/-- C10 fails on the code: with three runs selected and the delete request of
the second one rejected, the three delete requests are issued but the script
ends with an uncaught rejection and prints no completion summary, which it does
print when every request resolves; the trace is the same when the third request
is the one that rejects, so nothing in it names the failed deletion. -/
theorem delete_failure_loses_summary :
    main parseDateUTC (exampleInputs none (some "3") (fun i => i != 1)) =
      ⟨[Effect.request "GET" "/repos/octo/repo/actions/workflows",
        Effect.request "GET" "/repos/octo/repo/actions/workflows/11/runs?per_page=100",
        Effect.request "GET"
          "/repos/octo/repo/actions/workflows/11/runs?status=cancelled&per_page=100",
        Effect.log "Found 5 cancelled runs",
        Effect.log "Identified 5 as superseded (will delete)",
        Effect.log "Keeping 0 cancelled runs (not superseded)",
        Effect.log
          "Deleting superseded cancelled workflow run: https://github.com/octo/repo/actions/runs/405",
        Effect.request "DELETE" "/repos/octo/repo/actions/runs/405",
        Effect.log
          "Deleting superseded cancelled workflow run: https://github.com/octo/repo/actions/runs/404",
        Effect.request "DELETE" "/repos/octo/repo/actions/runs/404",
        Effect.log
          "Deleting superseded cancelled workflow run: https://github.com/octo/repo/actions/runs/403",
        Effect.request "DELETE" "/repos/octo/repo/actions/runs/403"],
        Outcome.rejected⟩ ∧
    Effect.log "✨ Cleanup complete: 3 superseded run(s) deleted" ∈
      (main parseDateUTC (exampleInputs none (some "3") (fun _ => true))).effects ∧
    Effect.log "✨ Cleanup complete: 3 superseded run(s) deleted" ∉
      (main parseDateUTC (exampleInputs none (some "3") (fun i => i != 1))).effects ∧
    main parseDateUTC (exampleInputs none (some "3") (fun i => i != 1)) =
      main parseDateUTC (exampleInputs none (some "3") (fun i => i != 2)) := by
  decide

/-- The hypotheses and the conclusion of C10, as the code has it, at the example
data with the second delete request rejected. -/
theorem delete_failure_keeps_requests_drops_summary_witness :
    dryRun (exampleEnv none (some "3")) = false ∧
    findWorkflow (exampleEnv none (some "3")) exampleWorkflows =
      some ⟨11, ".github/workflows/ci.yml"⟩ ∧
    deleteRequests
        (main parseDateUTC ⟨exampleEnv none (some "3"), some exampleWorkflows, some exampleAllRuns,
          some exampleCancelledRuns, fun i => i != 1⟩) =
      (runsToDelete parseDateUTC (exampleEnv none (some "3")) exampleAllRuns
        exampleCancelledRuns).map
        (fun run => Effect.request "DELETE" (deletePath (exampleEnv none (some "3")) run)) :=
  ⟨by decide, by decide,
    (delete_failure_keeps_requests_drops_summary parseDateUTC (exampleEnv none (some "3"))
      exampleWorkflows ⟨11, ".github/workflows/ci.yml"⟩ exampleAllRuns exampleCancelledRuns
      (fun i => i != 1) (by decide) (by decide)).1⟩

end DeleteCancelledRuns
